import Mathlib

/-!
Shallow embedding of the runtime core of the nb2 packet-processing framework
(src/core/src/runtime/mod.rs) and of the raw-packet wrapper
(src/framework/src/packets/raw.rs), together with theorems settling the
frozen claims about that code.

External collaborators (the EAL bindings, DPDK port start/stop, OS signal
delivery, the tokio executors) are modelled by an explicit environment
`Env` that records which of their fallible calls fail and which Unix
signals the OS delivers; the logic of the repository's own functions is
translated from the source.
-/

namespace Nb2

/-- Supported Unix signals, from the `UnixSignal` enum in
src/core/src/runtime/mod.rs (discriminants are the libc signal numbers). -/
inductive UnixSignal
  | SIGHUP
  | SIGINT
  | SIGTERM
deriving DecidableEq, Repr

/-- Raw signal number of each supported signal (libc values on Linux):
SIGHUP = 1, SIGINT = 2, SIGTERM = 15. -/
def UnixSignal.toRaw : UnixSignal → Nat
  | .SIGHUP => 1
  | .SIGINT => 2
  | .SIGTERM => 15

/-- The three per-kind subscriptions of `wait_for_signal`
(`SignalKind::hangup()`, `interrupt()`, `terminate()`) viewed as a map
from the raw signal number delivered by the OS to the merged stream's
element: a raw signal enters the merged stream exactly when it is one of
the three subscribed kinds. -/
def signalFromRaw (n : Nat) : Option UnixSignal :=
  if n = 1 then some UnixSignal.SIGHUP
  else if n = 2 then some UnixSignal.SIGINT
  else if n = 15 then some UnixSignal.SIGTERM
  else none

/-- Lifecycle states of a DPDK port (spec section 4.3: Configured, Started,
Stopped). -/
inductive PortState
  | Configured
  | Started
  | Stopped
deriving DecidableEq, Repr

/-- Opaque rx/tx queue pair handle (`PortQueue`), trivially copyable. -/
structure PortQueue where
  qid : Nat
deriving DecidableEq, Repr

/-- A configured NIC port: logical name, device string, and the ordered
mapping from core id to that core's queue pair, plus its lifecycle state. -/
structure Port where
  name : String
  device : String
  queues : List (Nat × PortQueue)
  state : PortState
deriving DecidableEq, Repr

/-- Per-core worker record (`core_map`): the one-shot unpark token, the
one-shot shutdown trigger and the one-shot join handle, each `Option`
because they are consumed (`take`) at most once. -/
structure WorkerExecutor where
  unpark : Option Unit
  shutdown : Option Unit
  join : Option Unit
deriving DecidableEq, Repr

/-- A task spawned to a worker core's executor. Each record corresponds to
exactly one invocation of the user-supplied installer (or periodic task
closure) with the recorded argument, performed by the bootstrap once it
runs on the target core. -/
inductive Bootstrap
  | portPipeline (portName : String) (q : PortQueue)
  | corePipeline (qs : List (String × PortQueue))
  | periodicTask (dur : Nat)
deriving DecidableEq, Repr

/-- Errors surfaced by the runtime operations modelled here. -/
inductive RtError
  | PortStartFailed (name : String)
  | PortNotFound (name : String)
  | CoreNotFound (core : Nat)
  | CoreNotAssigned (core : Nat)
  | SpawnFailed
  | SignalSubscribeFailed
deriving DecidableEq, Repr

/-- Observable actions performed by `execute` and `Drop` on the external
world, in program order. -/
inductive Event
  | portStart (name : String)
  | unpark (core : Nat)
  | waitSignal
  | timerDelay (secs : Nat)
  | shutdownTrigger (core : Nat)
  | joinThread (core : Nat)
  | portStop (name : String)
  | ealCleanup
deriving DecidableEq, Repr

/-- Event classifier: a port-start event. -/
def Event.isPortStart : Event → Bool
  | .portStart _ => true
  | _ => false

/-- Event classifier: an unpark event. -/
def Event.isUnpark : Event → Bool
  | .unpark _ => true
  | _ => false

/-- Event classifier: a shutdown-trigger event. -/
def Event.isShutdownTrigger : Event → Bool
  | .shutdownTrigger _ => true
  | _ => false

/-- Event classifier: a thread-join event. -/
def Event.isJoinThread : Event → Bool
  | .joinThread _ => true
  | _ => false

/-- Event classifier: a port-stop event. -/
def Event.isPortStop : Event → Bool
  | .portStop _ => true
  | _ => false

/-- Environment oracle for the external collaborators: which DPDK port
starts fail, which signal-stream subscriptions fail, the raw Unix signals
the OS delivers (in arrival order), which executor spawns fail, and
whether `eal_cleanup` fails. -/
structure Env where
  startFails : String → Bool
  subscribeFails : UnixSignal → Bool
  rawSignals : List Nat
  spawnFails : Nat → Bool
  ealCleanupFails : Bool

/-- The runtime: ports, worker core map, the stored signal callback, the
configured optional duration, and the log of tasks spawned onto worker
executors (one entry per bootstrap, in spawn order). -/
structure Runtime where
  ports : List Port
  cores : List (Nat × WorkerExecutor)
  onSignal : UnixSignal → Bool
  duration : Option Nat
  spawnLog : List (Nat × Bootstrap)

/-- Mempool sizing settings (capacity, cache size). -/
structure MempoolSettings where
  capacity : Nat
  cache_size : Nat

/-- Per-port configuration consumed by `build`. -/
structure PortSettings where
  name : String
  device : String
  cores : List Nat
  rxd : Nat
  txd : Nat

/-- The `RuntimeSettings` configuration surface that `build` consumes. -/
structure RuntimeSettings where
  master_core : Nat
  workers : List Nat
  ports : List PortSettings
  mempool : MempoolSettings
  duration : Option Nat

/-- Build-time oracle for the collaborator calls made by `Runtime::build`:
the results of `eal_init`, `MempoolMap::new`, the `CoreMapBuilder` chain
and the `PortBuilder` chain for each configured port. -/
structure BuildEnv where
  ealInitResult : Except RtError Unit
  mempoolResult : Except RtError Unit
  coreMapResult : Except RtError (List (Nat × WorkerExecutor))
  portResult : PortSettings → Except RtError Port

/-- Builds the ports one configuration at a time, stopping at the first
`PortBuilder` failure, as the `for conf in config.ports.iter()` loop of
`Runtime::build` does. -/
def buildPorts (benv : BuildEnv) : List PortSettings → Except RtError (List Port)
  | [] => .ok []
  | conf :: rest =>
    match benv.portResult conf with
    | .error e => .error e
    | .ok port =>
      match buildPorts benv rest with
      | .error e => .error e
      | .ok ports => .ok (port :: ports)

/-- Translation of `Runtime::build`: initialize the EAL, the mempools, the
core map and the ports in order, propagating the first failure, and
assemble the runtime with the default signal handler that admits every
signal. -/
def Runtime.build (benv : BuildEnv) (config : RuntimeSettings) : Except RtError Runtime :=
  match benv.ealInitResult with
  | .error e => .error e
  | .ok _ =>
    match benv.mempoolResult with
    | .error e => .error e
    | .ok _ =>
      match benv.coreMapResult with
      | .error e => .error e
      | .ok core_map =>
        match buildPorts benv config.ports with
        | .error e => .error e
        | .ok ports =>
          .ok { ports := ports
                cores := core_map
                onSignal := fun _ => true
                duration := config.duration
                spawnLog := [] }

/-- Translation of `Runtime::set_on_signal`: stores the new callback,
replacing the previous one. -/
def Runtime.set_on_signal (rt : Runtime) (f : UnixSignal → Bool) : Runtime :=
  { rt with onSignal := f }

/-- The port-queue mapping collected by `add_pipeline_to_core` for a core:
for each port of the runtime that has a queue on that core, the port's
name paired with that queue (`ports.iter().filter_map(...)`). -/
def corePortQueues (rt : Runtime) (core : Nat) : List (String × PortQueue) :=
  rt.ports.filterMap (fun p => (p.queues.lookup core).map (fun q => (p.name, q)))

/-- Translation of `Runtime::add_pipeline_to_core`: look the core up in the
core map (`CoreError::NotFound` if absent), collect the port-queue mapping
for it (`CoreError::NotAssigned` if empty), then spawn onto that core one
bootstrap that invokes the installer exactly once with the mapping. -/
def Runtime.add_pipeline_to_core (env : Env) (rt : Runtime) (core : Nat) :
    Except RtError Unit × Runtime :=
  match rt.cores.lookup core with
  | none => (.error (.CoreNotFound core), rt)
  | some _ =>
    let port_qs := corePortQueues rt core
    if port_qs.isEmpty then (.error (.CoreNotAssigned core), rt)
    else if env.spawnFails core then (.error .SpawnFailed, rt)
    else (.ok (), { rt with spawnLog := rt.spawnLog ++ [(core, .corePipeline port_qs)] })

/-- The per-queue spawn loop of `add_pipeline_to_port`: for each
`(core, queue)` pair of the port, index the core map (a missing core is a
panic of the `HashMap` index, modelled as `none`) and spawn a bootstrap
that invokes the installer once with that queue; a failed spawn aborts the
loop with `SpawnFailed`, keeping the bootstraps already spawned. -/
def spawnPortPipelines (env : Env) (pname : String) (cores : List (Nat × WorkerExecutor)) :
    List (Nat × PortQueue) → Option (Except RtError Unit × List (Nat × Bootstrap))
  | [] => some (.ok (), [])
  | (c, q) :: rest =>
    match cores.lookup c with
    | none => none
    | some _ =>
      if env.spawnFails c then some (.error .SpawnFailed, [])
      else
        match spawnPortPipelines env pname cores rest with
        | none => none
        | some (res, log) => some (res, (c, .portPipeline pname q) :: log)

/-- Translation of `Runtime::add_pipeline_to_port`: resolve the port by
name (`PortError::NotFound` otherwise, leaving the runtime untouched),
then spawn one installer-invoking bootstrap per `(core, queue)` pair of
the port. `none` models the panic of indexing the core map with a core
that is not registered. -/
def Runtime.add_pipeline_to_port (env : Env) (rt : Runtime) (name : String) :
    Option (Except RtError Unit × Runtime) :=
  match rt.ports.find? (fun p => p.name == name) with
  | none => some (.error (.PortNotFound name), rt)
  | some port =>
    match spawnPortPipelines env port.name rt.cores port.queues with
    | none => none
    | some (res, log) => some (res, { rt with spawnLog := rt.spawnLog ++ log })

/-- Translation of `Runtime::add_periodic_task_to_core`: look the core up
(`CoreError::NotFound` if absent) and spawn one bootstrap that runs the
task at the given interval on that core's timer. -/
def Runtime.add_periodic_task_to_core (env : Env) (rt : Runtime) (core : Nat) (dur : Nat) :
    Except RtError Unit × Runtime :=
  match rt.cores.lookup core with
  | none => (.error (.CoreNotFound core), rt)
  | some _ =>
    if env.spawnFails core then (.error .SpawnFailed, rt)
    else (.ok (), { rt with spawnLog := rt.spawnLog ++ [(core, .periodicTask dur)] })

/-- Marks a port started (`port.start()` succeeded). -/
def startPort (p : Port) : Port := { p with state := .Started }

/-- Marks a port stopped (`port.stop()`; idempotent). -/
def stopPort (p : Port) : Port := { p with state := .Stopped }

/-- The port-start loop of `execute`: start each port in order; the first
failure aborts the loop, leaving the already started ports started and the
rest untouched. Returns the error (if any), the updated port list and the
trace of successful starts. -/
def startPorts (env : Env) : List Port → Option RtError × List Port × List Event
  | [] => (none, [], [])
  | p :: ps =>
    if env.startFails p.name then (some (.PortStartFailed p.name), p :: ps, [])
    else
      let r := startPorts env ps
      (r.1, startPort p :: r.2.1, Event.portStart p.name :: r.2.2)

/-- Translation of `Runtime::wait_for_signal`: subscribe to the hangup,
interrupt and terminate signal kinds in that order (the first failing
subscription aborts), merge the three streams — here: the OS-delivered raw
signals restricted to the three subscribed kinds, in arrival order — and
block until the first merged signal that the callback admits; signals the
callback rejects are discarded. Returns the signal that unblocked the
wait, or `none` when the stream ended. -/
def wait_for_signal (env : Env) (f : UnixSignal → Bool) : Except RtError (Option UnixSignal) :=
  if env.subscribeFails .SIGHUP then .error .SignalSubscribeFailed
  else if env.subscribeFails .SIGINT then .error .SignalSubscribeFailed
  else if env.subscribeFails .SIGTERM then .error .SignalSubscribeFailed
  else .ok ((env.rawSignals.filterMap signalFromRaw).find? f)

/-- Translation of `Runtime::wait_for_timeout`: schedule a one-shot delay
of the given number of seconds on the master timer, block on it, and
return cleanly. -/
def wait_for_timeout (secs : Nat) : Except RtError Unit × List Event :=
  (.ok (), [Event.timerDelay secs])

/-- Signal-mode arm of the wait: run `wait_for_signal`, discarding the
woken signal (`let _ = thread.block_on(stream.next())`). -/
def signalModeStep (env : Env) (f : UnixSignal → Bool) : Except RtError Unit × List Event :=
  match wait_for_signal env f with
  | .error e => (.error e, [])
  | .ok _ => (.ok (), [Event.waitSignal])

/-- The wait-mode dispatch of `execute` (`match self.config.duration`):
absent or zero duration selects signal mode, a non-zero duration selects
timeout mode. -/
def waitStep (env : Env) (f : UnixSignal → Bool) : Option Nat → Except RtError Unit × List Event
  | none => signalModeStep env f
  | some 0 => signalModeStep env f
  | some d => wait_for_timeout d

/-- The shutdown loop of `execute`: for each worker in core-map order, take
the shutdown trigger if still present, fire it, then take the join handle
and join the thread (`join.take().unwrap()` panics — modelled as `none` —
if the join handle is already gone). Workers whose trigger was already
taken are skipped. -/
def shutdownCores : List (Nat × WorkerExecutor) → Option (List (Nat × WorkerExecutor) × List Event)
  | [] => some ([], [])
  | (c, w) :: rest =>
    match w.shutdown with
    | none => (shutdownCores rest).map (fun res => ((c, w) :: res.1, res.2))
    | some _ =>
      match w.join with
      | none => none
      | some _ =>
        (shutdownCores rest).map (fun res =>
          ((c, { w with shutdown := none, join := none }) :: res.1,
           Event.shutdownTrigger c :: Event.joinThread c :: res.2))

/-- The unpark loop of `execute`: one unpark action per worker that still
holds its unpark token, in core-map order; the token is borrowed, not
consumed. -/
def unparkEvents (cores : List (Nat × WorkerExecutor)) : List Event :=
  cores.filterMap (fun cw => cw.2.unpark.map (fun _ => Event.unpark cw.1))

/-- Translation of `Runtime::execute`: start every port (first failure
returns immediately), unpark every worker that has an unpark token, run
the wait selected by the configured duration (a wait error returns
immediately), then fire every worker's shutdown trigger and join its
thread, and finally stop every port. `none` models a panic in the
shutdown loop. -/
def Runtime.execute (env : Env) (rt : Runtime) :
    Option (Except RtError Unit × Runtime × List Event) :=
  match startPorts env rt.ports with
  | (some e, ports1, tr1) => some (.error e, { rt with ports := ports1 }, tr1)
  | (none, ports1, tr1) =>
    match waitStep env rt.onSignal rt.duration with
    | (.error e, tr2) =>
      some (.error e, { rt with ports := ports1 }, tr1 ++ unparkEvents rt.cores ++ tr2)
    | (.ok _, tr2) =>
      match shutdownCores rt.cores with
      | none => none
      | some (cores1, tr3) =>
        some (.ok (), { rt with ports := ports1.map stopPort, cores := cores1 },
          tr1 ++ unparkEvents rt.cores ++ tr2 ++ tr3 ++
            ports1.map (fun p => Event.portStop p.name))

/-- Translation of `impl Drop for Runtime`: call `eal_cleanup`
unconditionally, then `unwrap` its result — a cleanup failure panics,
modelled by `none` in the second component; the cleanup call itself is in
the trace either way. -/
def Runtime.dropRuntime (env : Env) (_rt : Runtime) : List Event × Option Unit :=
  ([Event.ealCleanup], if env.ealCleanupFails then none else some ())

/-- Well-formedness established by a successful `build`: worker core ids
are distinct and every worker still holds its shutdown trigger and join
handle. -/
def WfRuntime (rt : Runtime) : Prop :=
  (rt.cores.map Prod.fst).Nodup ∧
    ∀ cw ∈ rt.cores, cw.2.shutdown.isSome = true ∧ cw.2.join.isSome = true

instance (rt : Runtime) : Decidable (WfRuntime rt) := by
  unfold WfRuntime; infer_instance

/-- Packet-layer error type (src/framework): only allocation can fail for
raw packets. -/
inductive PacketError
  | FailedAllocation
deriving DecidableEq, Repr

/-- A raw network packet (src/framework/src/packets/raw.rs): a wrapper
around the underlying buffer handle, modelled as the numeric value of the
`*mut MBuf` pointer. -/
structure RawPacket where
  mbuf : Nat
deriving DecidableEq, Repr

/-- Translation of `RawPacket::from_mbuf`. -/
def RawPacket.from_mbuf (mbuf : Nat) : RawPacket := { mbuf := mbuf }

/-- The `Packet::offset` implementation for `RawPacket`: always 0. -/
def RawPacket.offset (_p : RawPacket) : Nat := 0

/-- The `Packet::header_len` implementation for `RawPacket`: always 0. -/
def RawPacket.header_len (_p : RawPacket) : Nat := 0

/-- The `Packet::do_parse` implementation for `RawPacket`: returns the
envelope unchanged. -/
def RawPacket.do_parse (envelope : RawPacket) : Except PacketError RawPacket :=
  .ok envelope

/-- The `Packet::do_push` implementation for `RawPacket`: returns the
envelope unchanged. -/
def RawPacket.do_push (envelope : RawPacket) : Except PacketError RawPacket :=
  .ok envelope

/-- The `Packet::remove` implementation for `RawPacket`: returns the
packet itself as the envelope. -/
def RawPacket.remove (p : RawPacket) : Except PacketError RawPacket :=
  .ok p

/-- The `Packet::deparse` implementation for `RawPacket`: returns the
packet itself. -/
def RawPacket.deparse (p : RawPacket) : RawPacket := p

/-- Concrete sample queue for witnesses. -/
def q0 : PortQueue := { qid := 0 }

/-- Concrete worker holding all three one-shot tokens, as after `build`. -/
def w0 : WorkerExecutor := { unpark := some (), shutdown := some (), join := some () }

/-- Concrete configured port assigned to core 1. -/
def port0 : Port :=
  { name := "eth0", device := "0000:00:08.0", queues := [(1, q0)], state := .Configured }

/-- Concrete second port assigned to core 2, for multi-port witnesses. -/
def port1 : Port :=
  { name := "eth1", device := "0000:00:09.0", queues := [(2, q0)], state := .Configured }

/-- Concrete runtime in timeout mode with one port and one worker. -/
def rt0 : Runtime :=
  { ports := [port0]
    cores := [(1, w0)]
    onSignal := fun _ => true
    duration := some 1
    spawnLog := [] }

/-- Concrete runtime in signal mode with two ports and two workers. -/
def rtSig : Runtime :=
  { ports := [port0, port1]
    cores := [(1, w0), (2, w0)]
    onSignal := fun _ => true
    duration := none
    spawnLog := [] }

/-- Benign environment: nothing fails, no signals delivered. -/
def env0 : Env :=
  { startFails := fun _ => false
    subscribeFails := fun _ => false
    rawSignals := []
    spawnFails := fun _ => false
    ealCleanupFails := false }

/-- Environment in which every signal-stream subscription fails. -/
def envSubFail : Env :=
  { env0 with subscribeFails := fun _ => true }

/-- Runtime with a third worker core that no port is assigned to. -/
def rtC6 : Runtime :=
  { rtSig with cores := [(1, w0), (2, w0), (3, w0)] }

/-- Build oracle in which every collaborator call succeeds. -/
def benv0 : BuildEnv :=
  { ealInitResult := .ok ()
    mempoolResult := .ok ()
    coreMapResult := .ok [(1, w0)]
    portResult := fun _ => .ok port0 }

/-- Concrete configuration for build witnesses. -/
def cfg0 : RuntimeSettings :=
  { master_core := 0
    workers := [1]
    ports := []
    mempool := { capacity := 1024, cache_size := 32 }
    duration := some 1 }

/-- The runtime assembled by `Runtime.build benv0 cfg0`. -/
def rtBuilt : Runtime :=
  { ports := [], cores := [(1, w0)], onSignal := fun _ => true
    duration := some 1, spawnLog := [] }

/-- Environment delivering raw signals 10 (unsubscribed), 1 (SIGHUP) and
2 (SIGINT), in that order. -/
def envC4 : Env :=
  { env0 with rawSignals := [10, 1, 2] }

/-- Callback that discards SIGHUP and admits everything else. -/
def fC4 : UnixSignal → Bool := fun s => s != UnixSignal.SIGHUP

/-- The runtime `rt0` as it stands after a clean `execute`. -/
def rt0exec : Runtime :=
  { ports := [{ name := "eth0", device := "0000:00:08.0", queues := [(1, q0)],
                state := .Stopped }]
    cores := [(1, { unpark := some (), shutdown := none, join := none })]
    onSignal := fun _ => true
    duration := some 1
    spawnLog := [] }

/-- The event trace of a clean `execute` on `rt0`. -/
def tr0exec : List Event :=
  [Event.portStart "eth0", Event.unpark 1, Event.timerDelay 1,
   Event.shutdownTrigger 1, Event.joinThread 1, Event.portStop "eth0"]

/-- A successful `find?` splits the list at the first element the
predicate admits; everything before it was rejected. -/
theorem find?_eq_some_first {α} (p : α → Bool) :
    ∀ (l : List α) (a : α), l.find? p = some a →
      ∃ pre post, l = pre ++ a :: post ∧ (∀ x ∈ pre, p x = false) ∧ p a = true := by
  intro l
  induction l with
  | nil => intro a h; exact absurd h (by simp)
  | cons x xs ih =>
    intro a h
    by_cases hx : p x
    · rw [List.find?_cons_of_pos _ hx] at h
      obtain rfl : x = a := by injection h
      exact ⟨[], xs, rfl, by simp, hx⟩
    · rw [List.find?_cons_of_neg _ hx] at h
      obtain ⟨pre, post, rfl, hpre, ha⟩ := ih a h
      exact ⟨x :: pre, post, rfl, by
        intro y hy
        rcases List.mem_cons.mp hy with rfl | hy
        · exact Bool.eq_false_iff.mpr hx
        · exact hpre y hy, ha⟩

/-- Conversely, `find?` returns the first admitted element: rejected
prefix, then an admitted element, yields exactly that element. -/
theorem find?_first_eq_some {α} (p : α → Bool) :
    ∀ (pre : List α) (a : α) (post : List α),
      (∀ x ∈ pre, p x = false) → p a = true →
      (pre ++ a :: post).find? p = some a := by
  intro pre
  induction pre with
  | nil => intro a post _ ha; simpa using List.find?_cons_of_pos _ ha
  | cons x xs ih =>
    intro a post hpre ha
    have hx : ¬ p x = true := by
      simp [hpre x (List.mem_cons_self x xs)]
    rw [List.cons_append, List.find?_cons_of_neg _ hx]
    exact ih a post (fun y hy => hpre y (List.mem_cons_of_mem x hy)) ha

/-- Repeated `set_on_signal` keeps only the last callback. -/
theorem foldl_set_on_signal :
    ∀ (fs : List (UnixSignal → Bool)) (rt : Runtime),
      (fs.foldl Runtime.set_on_signal rt).onSignal = fs.getLast?.getD rt.onSignal := by
  intro fs
  induction fs with
  | nil => intro rt; rfl
  | cons f rest ih =>
    intro rt
    rw [List.foldl_cons, ih]
    cases rest with
    | nil => rfl
    | cons r rs =>
      rw [List.getLast?_cons_cons]
      obtain ⟨x, hx⟩ : ∃ x, (r :: rs).getLast? = some x := by
        cases h : (r :: rs).getLast? with
        | none => exact absurd h (by simp [List.getLast?_eq_none_iff])
        | some x => exact ⟨x, rfl⟩
      rw [hx]
      rfl

/-- Claim C10: for every `RawPacket`, the parse, push, remove and deparse
operations are identities over the underlying buffer handle — they all
return (`Ok` of) a packet with the same `mbuf` pointer — and `offset` and
`header_len` are always 0; consequently `do_parse (deparse p) = Ok p`. -/
theorem RawPacket.parse_deparse_identity :
    ∀ p : RawPacket,
      RawPacket.do_parse p = .ok p ∧
      (RawPacket.do_parse p).map RawPacket.mbuf = .ok p.mbuf ∧
      RawPacket.deparse p = p ∧
      (RawPacket.deparse p).mbuf = p.mbuf ∧
      RawPacket.remove p = .ok p ∧
      (RawPacket.remove p).map RawPacket.mbuf = .ok p.mbuf ∧
      RawPacket.do_push p = .ok p ∧
      RawPacket.offset p = 0 ∧
      RawPacket.header_len p = 0 ∧
      RawPacket.do_parse (RawPacket.deparse p) = .ok p := by
  intro p
  exact ⟨rfl, rfl, rfl, rfl, rfl, rfl, rfl, rfl, rfl, rfl⟩

/-- Claim C3: inside `execute`, the wait mode depends only on the
configured duration — an absent or zero duration selects signal mode
(`wait_for_signal`), and a non-zero duration `d` selects timeout mode,
which schedules a one-shot delay of `d` seconds on the master timer,
blocks on it and returns cleanly. -/
theorem Runtime.execute_wait_mode_by_duration :
    ∀ (env : Env) (rt : Runtime),
      ((rt.duration = none ∨ rt.duration = some 0) →
        waitStep env rt.onSignal rt.duration = signalModeStep env rt.onSignal) ∧
      (∀ d : Nat, rt.duration = some d → d ≠ 0 →
        waitStep env rt.onSignal rt.duration = wait_for_timeout d ∧
        wait_for_timeout d = (.ok (), [Event.timerDelay d])) := by
  intro env rt
  constructor
  · intro h
    rcases h with h | h <;> rw [h] <;> rfl
  · intro d hd hdz
    rw [hd]
    cases d with
    | zero => exact absurd rfl hdz
    | succ k => exact ⟨rfl, rfl⟩

/-- Witness for claim C3 at the concrete runtime `rt0` (duration 1). -/
theorem Runtime.execute_wait_mode_by_duration_witness :
    waitStep env0 rt0.onSignal rt0.duration = wait_for_timeout 1 ∧
    wait_for_timeout 1 = (.ok (), [Event.timerDelay 1]) :=
  (Runtime.execute_wait_mode_by_duration env0 rt0).2 1 rfl (by decide)

/-- Claim C4: in signal mode, the runtime subscribes to exactly the three
signals SIGHUP, SIGINT and SIGTERM (a raw signal enters the merged stream
precisely when it is one of those three), every arriving signal is passed
through the current callback, signals the callback rejects are discarded,
and the wait unblocks on the first signal the callback admits. -/
theorem Runtime.wait_for_signal_spec :
    ∀ (env : Env) (f : UnixSignal → Bool),
      (∀ s, env.subscribeFails s = false) →
      (∀ n : Nat, (signalFromRaw n).isSome = true ↔
        (n = UnixSignal.toRaw .SIGHUP ∨ n = UnixSignal.toRaw .SIGINT ∨
          n = UnixSignal.toRaw .SIGTERM)) ∧
      wait_for_signal env f = .ok ((env.rawSignals.filterMap signalFromRaw).find? f) ∧
      (∀ s, (env.rawSignals.filterMap signalFromRaw).find? f = some s →
        f s = true ∧ ∃ pre post,
          env.rawSignals.filterMap signalFromRaw = pre ++ s :: post ∧
          ∀ x ∈ pre, f x = false) ∧
      (∀ pre s post, env.rawSignals.filterMap signalFromRaw = pre ++ s :: post →
        (∀ x ∈ pre, f x = false) → f s = true →
        (env.rawSignals.filterMap signalFromRaw).find? f = some s) ∧
      ((env.rawSignals.filterMap signalFromRaw).find? f = none →
        ∀ s ∈ env.rawSignals.filterMap signalFromRaw, f s = false) := by
  intro env f hsub
  refine ⟨?_, ?_, ?_, ?_, ?_⟩
  · intro n
    unfold signalFromRaw UnixSignal.toRaw
    split_ifs with h1 h2 h3 <;> simp_all
  · unfold wait_for_signal
    rw [hsub .SIGHUP, hsub .SIGINT, hsub .SIGTERM]
    rfl
  · intro s hs
    obtain ⟨pre, post, heq, hpre, hfs⟩ := find?_eq_some_first f _ s hs
    exact ⟨hfs, pre, post, heq, hpre⟩
  · intro pre s post heq hpre hfs
    rw [heq]
    exact find?_first_eq_some f pre s post hpre hfs
  · intro hnone s hsmem
    simpa using List.find?_eq_none.mp hnone s hsmem

/-- Witness for claim C4: with raw signals 10, SIGHUP, SIGINT delivered
and a callback discarding SIGHUP, the wait unblocks on SIGINT (the
unsubscribed raw signal 10 never enters the stream). -/
theorem Runtime.wait_for_signal_spec_witness :
    wait_for_signal envC4 fC4 = .ok (some UnixSignal.SIGINT) := by
  have h := (Runtime.wait_for_signal_spec envC4 fC4 (fun _ => rfl)).2.1
  simpa using h

/-- Claim C8: `set_on_signal` replaces the stored callback, so after any
sequence of calls only the most recently set callback remains and is the
one `wait_for_signal` consults during `execute`; a freshly built runtime
holds the default handler that returns `true` for every signal. -/
theorem Runtime.set_on_signal_latest :
    (∀ (rt : Runtime) (f g : UnixSignal → Bool),
      ((rt.set_on_signal f).set_on_signal g).onSignal = g) ∧
    (∀ (rt : Runtime) (fs : List (UnixSignal → Bool)),
      (fs.foldl Runtime.set_on_signal rt).onSignal = fs.getLast?.getD rt.onSignal) ∧
    (∀ (env : Env) (rt : Runtime) (f : UnixSignal → Bool),
      wait_for_signal env (rt.set_on_signal f).onSignal = wait_for_signal env f) ∧
    (∀ (benv : BuildEnv) (config : RuntimeSettings) (rt : Runtime),
      Runtime.build benv config = .ok rt → ∀ s, rt.onSignal s = true) := by
  refine ⟨fun rt f g => rfl, fun rt fs => foldl_set_on_signal fs rt,
    fun env rt f => rfl, ?_⟩
  intro benv config rt h s
  unfold Runtime.build at h
  rcases hE : benv.ealInitResult with e | u <;> rw [hE] at h
  · simp at h
  rcases hM : benv.mempoolResult with e | u2 <;> rw [hM] at h
  · simp at h
  rcases hC : benv.coreMapResult with e | cm <;> rw [hC] at h
  · simp at h
  rcases hP : buildPorts benv config.ports with e | ps <;> rw [hP] at h
  · simp at h
  simp only [Except.ok.injEq] at h
  rw [← h]

/-- Witness for claim C8: the concretely built runtime `rtBuilt` carries
the default handler, which admits SIGINT. -/
theorem Runtime.set_on_signal_latest_witness :
    rtBuilt.onSignal UnixSignal.SIGINT = true :=
  Runtime.set_on_signal_latest.2.2.2 benv0 cfg0 rtBuilt rfl UnixSignal.SIGINT

/-- Equation for `execute` when some port fails to start. -/
theorem execute_eq_start_error (env : Env) (rt : Runtime) {e : RtError}
    {ports1 : List Port} {tr1 : List Event}
    (h : startPorts env rt.ports = (some e, ports1, tr1)) :
    Runtime.execute env rt = some (.error e, { rt with ports := ports1 }, tr1) := by
  unfold Runtime.execute
  rw [h]

/-- Equation for `execute` when all ports start but the wait step fails. -/
theorem execute_eq_wait_error (env : Env) (rt : Runtime)
    {ports1 : List Port} {tr1 : List Event} {e : RtError} {tr2 : List Event}
    (h1 : startPorts env rt.ports = (none, ports1, tr1))
    (h2 : waitStep env rt.onSignal rt.duration = (.error e, tr2)) :
    Runtime.execute env rt =
      some (.error e, { rt with ports := ports1 },
        tr1 ++ unparkEvents rt.cores ++ tr2) := by
  unfold Runtime.execute
  rw [h1, h2]

/-- Equation for `execute` when the shutdown loop panics. -/
theorem execute_eq_panic (env : Env) (rt : Runtime)
    {ports1 : List Port} {tr1 : List Event} {u : Unit} {tr2 : List Event}
    (h1 : startPorts env rt.ports = (none, ports1, tr1))
    (h2 : waitStep env rt.onSignal rt.duration = (.ok u, tr2))
    (h3 : shutdownCores rt.cores = none) :
    Runtime.execute env rt = none := by
  unfold Runtime.execute
  rw [h1, h2, h3]

/-- Equation for `execute` on a clean run. -/
theorem execute_eq_ok (env : Env) (rt : Runtime)
    {ports1 : List Port} {tr1 : List Event} {u : Unit} {tr2 : List Event}
    {cores1 : List (Nat × WorkerExecutor)} {tr3 : List Event}
    (h1 : startPorts env rt.ports = (none, ports1, tr1))
    (h2 : waitStep env rt.onSignal rt.duration = (.ok u, tr2))
    (h3 : shutdownCores rt.cores = some (cores1, tr3)) :
    Runtime.execute env rt =
      some (.ok (), { rt with ports := ports1.map stopPort, cores := cores1 },
        tr1 ++ unparkEvents rt.cores ++ tr2 ++ tr3 ++
          ports1.map (fun p => Event.portStop p.name)) := by
  unfold Runtime.execute
  rw [h1, h2, h3]

/-- Inversion: every non-panicking run of `execute` is a port-start
failure, a wait failure, or a clean run, with the corresponding result
and trace. -/
theorem execute_cases (env : Env) (rt : Runtime) :
    ∀ res, Runtime.execute env rt = some res →
      (∃ e ports1 tr1, startPorts env rt.ports = (some e, ports1, tr1) ∧
        res = (.error e, { rt with ports := ports1 }, tr1)) ∨
      (∃ ports1 tr1 e tr2, startPorts env rt.ports = (none, ports1, tr1) ∧
        waitStep env rt.onSignal rt.duration = (.error e, tr2) ∧
        res = (.error e, { rt with ports := ports1 },
          tr1 ++ unparkEvents rt.cores ++ tr2)) ∨
      (∃ ports1 tr1 u tr2 cores1 tr3, startPorts env rt.ports = (none, ports1, tr1) ∧
        waitStep env rt.onSignal rt.duration = (.ok u, tr2) ∧
        shutdownCores rt.cores = some (cores1, tr3) ∧
        res = (.ok (), { rt with ports := ports1.map stopPort, cores := cores1 },
          tr1 ++ unparkEvents rt.cores ++ tr2 ++ tr3 ++
            ports1.map (fun p => Event.portStop p.name))) := by
  intro res h
  rcases hsp : startPorts env rt.ports with ⟨efirst, ports1, tr1⟩
  cases efirst with
  | some e =>
    rw [execute_eq_start_error env rt hsp] at h
    exact Or.inl ⟨e, ports1, tr1, rfl, (Option.some.inj h).symm⟩
  | none =>
    rcases hw : waitStep env rt.onSignal rt.duration with ⟨wres, tr2⟩
    cases wres with
    | error e =>
      rw [execute_eq_wait_error env rt hsp hw] at h
      exact Or.inr (Or.inl ⟨ports1, tr1, e, tr2, rfl, rfl, (Option.some.inj h).symm⟩)
    | ok u =>
      rcases hsd : shutdownCores rt.cores with _ | ⟨cores1, tr3⟩
      · rw [execute_eq_panic env rt hsp hw hsd] at h
        cases h
      · rw [execute_eq_ok env rt hsp hw hsd] at h
        exact Or.inr (Or.inr ⟨ports1, tr1, u, tr2, cores1, tr3, rfl, rfl, rfl,
          (Option.some.inj h).symm⟩)

/-- Every event emitted by the port-start loop is a port start. -/
theorem startPorts_mem_shape (env : Env) :
    ∀ (ports : List Port), ∀ e ∈ (startPorts env ports).2.2, ∃ nm, e = Event.portStart nm := by
  intro ports
  induction ports with
  | nil => intro e he; simp [startPorts] at he
  | cons p ps ih =>
    intro e he
    unfold startPorts at he
    by_cases hf : env.startFails p.name
    · simp [hf] at he
    · simp only [hf, Bool.false_eq_true, if_false] at he
      rcases List.mem_cons.mp he with rfl | he2
      · exact ⟨p.name, rfl⟩
      · exact ih e he2

/-- Every event emitted by the unpark loop is an unpark. -/
theorem unparkEvents_mem_shape :
    ∀ (cores : List (Nat × WorkerExecutor)), ∀ e ∈ unparkEvents cores,
      ∃ c, e = Event.unpark c := by
  intro cores e he
  rcases List.mem_filterMap.mp he with ⟨cw, _, hmap⟩
  rcases hcw : cw.2.unpark with _ | u <;> rw [hcw] at hmap
  · cases hmap
  · exact ⟨cw.1, (Option.some.inj hmap).symm⟩

/-- Every event emitted by the wait step is the signal wake-up or a timer
delay. -/
theorem waitStep_mem_shape (env : Env) (f : UnixSignal → Bool) :
    ∀ (dur : Option Nat), ∀ e ∈ (waitStep env f dur).2,
      e = Event.waitSignal ∨ ∃ d, e = Event.timerDelay d := by
  have hsig : ∀ e ∈ (signalModeStep env f).2,
      e = Event.waitSignal ∨ ∃ d, e = Event.timerDelay d := by
    intro e he
    unfold signalModeStep at he
    rcases hw : wait_for_signal env f with er | r <;> rw [hw] at he
    · cases he
    · rcases List.mem_cons.mp he with rfl | he2
      · exact Or.inl rfl
      · cases he2
  intro dur
  match dur with
  | none => exact hsig
  | some 0 => exact hsig
  | some (d + 1) =>
    intro e he
    rcases List.mem_cons.mp he with rfl | he2
    · exact Or.inr ⟨d + 1, rfl⟩
    · cases he2

/-- Every event emitted by the shutdown loop is a trigger or a join. -/
theorem shutdownCores_mem_shape :
    ∀ (l : List (Nat × WorkerExecutor)) l2 tr, shutdownCores l = some (l2, tr) →
      ∀ e ∈ tr, (∃ c, e = Event.shutdownTrigger c) ∨ (∃ c, e = Event.joinThread c) := by
  intro l
  induction l with
  | nil =>
    intro l2 tr h e he
    obtain ⟨-, h2⟩ := Prod.mk.injEq .. ▸ Option.some.inj h
    rw [← h2] at he
    cases he
  | cons cw rest ih =>
    intro l2 tr h e he
    obtain ⟨c, w⟩ := cw
    unfold shutdownCores at h
    rcases hs : w.shutdown with _ | t <;> rw [hs] at h
    · rw [Option.map_eq_some'] at h
      obtain ⟨⟨l2r, trr⟩, hrec, hfe⟩ := h
      obtain ⟨-, h2⟩ := Prod.mk.injEq .. ▸ hfe
      rw [← h2] at he
      exact ih l2r trr hrec e he
    · rcases hj : w.join with _ | u <;> rw [hj] at h
      · cases h
      · rw [Option.map_eq_some'] at h
        obtain ⟨⟨l2r, trr⟩, hrec, hfe⟩ := h
        obtain ⟨-, h2⟩ := Prod.mk.injEq .. ▸ hfe
        rw [← h2] at he
        rcases List.mem_cons.mp he with rfl | he2
        · exact Or.inl ⟨c, rfl⟩
        · rcases List.mem_cons.mp he2 with rfl | he3
          · exact Or.inr ⟨c, rfl⟩
          · exact ih l2r trr hrec e he3

/-- Shape of every event in an `execute` trace: port starts, unparks,
wait events, triggers, joins and port stops only — in particular, never
an EAL cleanup. -/
theorem execute_trace_shape :
    ∀ (env : Env) (rt : Runtime) res, Runtime.execute env rt = some res →
      ∀ e ∈ res.2.2,
        (∃ nm, e = Event.portStart nm) ∨ (∃ c, e = Event.unpark c) ∨
        e = Event.waitSignal ∨ (∃ d, e = Event.timerDelay d) ∨
        (∃ c, e = Event.shutdownTrigger c) ∨ (∃ c, e = Event.joinThread c) ∨
        (∃ nm, e = Event.portStop nm) := by
  intro env rt res h e he
  rcases execute_cases env rt res h with
    ⟨e1, ports1, tr1, hsp, rfl⟩ |
    ⟨ports1, tr1, e1, tr2, hsp, hw, rfl⟩ |
    ⟨ports1, tr1, u, tr2, cores1, tr3, hsp, hw, hsd, rfl⟩
  · exact Or.inl (startPorts_mem_shape env rt.ports e (by rw [hsp]; exact he))
  · simp only [List.mem_append] at he
    rcases he with (he | he) | he
    · exact Or.inl (startPorts_mem_shape env rt.ports e (by rw [hsp]; exact he))
    · exact Or.inr (Or.inl (unparkEvents_mem_shape rt.cores e he))
    · rcases waitStep_mem_shape env rt.onSignal rt.duration e (by rw [hw]; exact he) with
        hws | hws
      · exact Or.inr (Or.inr (Or.inl hws))
      · exact Or.inr (Or.inr (Or.inr (Or.inl hws)))
  · simp only [List.mem_append] at he
    rcases he with (((he | he) | he) | he) | he
    · exact Or.inl (startPorts_mem_shape env rt.ports e (by rw [hsp]; exact he))
    · exact Or.inr (Or.inl (unparkEvents_mem_shape rt.cores e he))
    · rcases waitStep_mem_shape env rt.onSignal rt.duration e (by rw [hw]; exact he) with
        hws | hws
      · exact Or.inr (Or.inr (Or.inl hws))
      · exact Or.inr (Or.inr (Or.inr (Or.inl hws)))
    · rcases shutdownCores_mem_shape rt.cores cores1 tr3 hsd e he with hsc | hsc
      · exact Or.inr (Or.inr (Or.inr (Or.inr (Or.inl hsc))))
      · exact Or.inr (Or.inr (Or.inr (Or.inr (Or.inr (Or.inl hsc)))))
    · rcases List.mem_map.mp he with ⟨p, -, rfl⟩
      exact Or.inr (Or.inr (Or.inr (Or.inr (Or.inr (Or.inr ⟨p.name, rfl⟩)))))

/-- Claim C9: `eal_cleanup` is performed exactly once per runtime and
only by `Drop` — `Drop` performs it unconditionally, treating a cleanup
failure as fatal (the `unwrap` panics exactly when cleanup fails) — and
`execute` never performs it: no `execute` trace contains a cleanup
event. -/
theorem Runtime.eal_cleanup_only_on_drop :
    ∀ (env : Env) (rt : Runtime),
      (Runtime.dropRuntime env rt).1.count Event.ealCleanup = 1 ∧
      (Runtime.dropRuntime env rt).2.isNone = env.ealCleanupFails ∧
      (Runtime.execute env rt).elim 0 (fun res => res.2.2.count Event.ealCleanup) = 0 := by
  intro env rt
  refine ⟨by simp [Runtime.dropRuntime], ?_, ?_⟩
  · unfold Runtime.dropRuntime
    by_cases hc : env.ealCleanupFails <;> simp [hc]
  · rcases hex : Runtime.execute env rt with _ | res
    · rfl
    · simp only [Option.elim]
      rw [List.count_eq_zero]
      intro hmem
      rcases execute_trace_shape env rt res hex Event.ealCleanup hmem with
        ⟨nm, he⟩ | ⟨c, he⟩ | he | ⟨d, he⟩ | ⟨c, he⟩ | ⟨c, he⟩ | ⟨nm, he⟩ <;> cases he

/-- Claim C6: `add_pipeline_to_core` returns `CoreError::NotFound` when
the core is not a registered worker, `CoreError::NotAssigned` when the
port-queue mapping collected for the core is empty, and otherwise spawns
one bootstrap that invokes the installer exactly once with the mapping
that pairs, for every port of the runtime with a queue on that core, the
port's name with that queue. -/
theorem Runtime.add_pipeline_to_core_spec :
    ∀ (env : Env) (rt : Runtime) (core : Nat),
      (rt.cores.lookup core = none →
        Runtime.add_pipeline_to_core env rt core = (.error (.CoreNotFound core), rt)) ∧
      ((rt.cores.lookup core).isSome = true → corePortQueues rt core = [] →
        Runtime.add_pipeline_to_core env rt core = (.error (.CoreNotAssigned core), rt)) ∧
      ((rt.cores.lookup core).isSome = true → corePortQueues rt core ≠ [] →
        env.spawnFails core = false →
        Runtime.add_pipeline_to_core env rt core =
          (.ok (), { rt with spawnLog :=
            rt.spawnLog ++ [(core, .corePipeline (corePortQueues rt core))] })) := by
  intro env rt core
  refine ⟨?_, ?_, ?_⟩
  · intro hlk
    unfold Runtime.add_pipeline_to_core
    rw [hlk]
  · intro hlk hqs
    rcases hc : rt.cores.lookup core with _ | w
    · rw [hc] at hlk; cases hlk
    · unfold Runtime.add_pipeline_to_core
      rw [hc, hqs]
      rfl
  · intro hlk hqs hsf
    rcases hc : rt.cores.lookup core with _ | w
    · rw [hc] at hlk; cases hlk
    · have hne : (corePortQueues rt core).isEmpty = false := by
        rcases hq : corePortQueues rt core with _ | ⟨x, xs⟩
        · exact absurd hq hqs
        · rfl
      unfold Runtime.add_pipeline_to_core
      rw [hc]
      simp only [hne, hsf, Bool.false_eq_true, if_false]

/-- Witness for claim C6, covering all three cases: core 7 is not a
worker; worker core 3 of `rtC6` has no queues; the install on worker
core 1 of `rtSig` succeeds with the mapping holding eth0's queue. -/
theorem Runtime.add_pipeline_to_core_spec_witness :
    Runtime.add_pipeline_to_core env0 rtSig 7 = (.error (.CoreNotFound 7), rtSig) ∧
    Runtime.add_pipeline_to_core env0 rtC6 3 = (.error (.CoreNotAssigned 3), rtC6) ∧
    Runtime.add_pipeline_to_core env0 rtSig 1 =
      (.ok (), { rtSig with spawnLog :=
        [(1, .corePipeline (corePortQueues rtSig 1))] }) :=
  ⟨(Runtime.add_pipeline_to_core_spec env0 rtSig 7).1 rfl,
   (Runtime.add_pipeline_to_core_spec env0 rtC6 3).2.1 rfl rfl,
   (Runtime.add_pipeline_to_core_spec env0 rtSig 1).2.2 rfl (by decide) rfl⟩

/-- When every core of the port is registered and no spawn fails, the
spawn loop of `add_pipeline_to_port` spawns one bootstrap per
`(core, queue)` pair, in order. -/
theorem spawnPortPipelines_all_ok (env : Env) (pname : String)
    (cores : List (Nat × WorkerExecutor)) :
    ∀ (qs : List (Nat × PortQueue)),
      (∀ cq ∈ qs, (cores.lookup cq.1).isSome = true) →
      (∀ cq ∈ qs, env.spawnFails cq.1 = false) →
      spawnPortPipelines env pname cores qs =
        some (.ok (), qs.map (fun cq => (cq.1, Bootstrap.portPipeline pname cq.2))) := by
  intro qs
  induction qs with
  | nil => intro _ _; rfl
  | cons cq rest ih =>
    intro hlk hsf
    obtain ⟨c, q⟩ := cq
    have hc1 := hlk (c, q) (List.mem_cons_self _ _)
    have hs1 := hsf (c, q) (List.mem_cons_self _ _)
    unfold spawnPortPipelines
    rcases hc : cores.lookup c with _ | w
    · rw [hc] at hc1; cases hc1
    · rw [hs1]
      rw [ih (fun x hx => hlk x (List.mem_cons_of_mem _ hx))
        (fun x hx => hsf x (List.mem_cons_of_mem _ hx))]
      rfl

/-- Claim C7: `add_pipeline_to_port` returns `PortError::NotFound` when no
port has the given name, leaving the runtime unchanged (so later valid
installs behave exactly as on the original runtime); when the port
exists, it spawns to each of the port's cores one bootstrap invoking the
installer exactly once with that core's queue — one invocation per
`(core, queue)` pair. -/
theorem Runtime.add_pipeline_to_port_spec :
    ∀ (env : Env) (rt : Runtime) (name : String),
      (rt.ports.find? (fun p => p.name == name) = none →
        Runtime.add_pipeline_to_port env rt name = some (.error (.PortNotFound name), rt)) ∧
      (∀ port, rt.ports.find? (fun p => p.name == name) = some port →
        (∀ cq ∈ port.queues, (rt.cores.lookup cq.1).isSome = true) →
        (∀ cq ∈ port.queues, env.spawnFails cq.1 = false) →
        Runtime.add_pipeline_to_port env rt name =
          some (.ok (),
            { rt with
                spawnLog := rt.spawnLog ++
                  port.queues.map (fun cq => (cq.1, Bootstrap.portPipeline port.name cq.2)) })) := by
  intro env rt name
  constructor
  · intro hfind
    unfold Runtime.add_pipeline_to_port
    rw [hfind]
  · intro port hfind hlk hsf
    unfold Runtime.add_pipeline_to_port
    simp only [hfind, spawnPortPipelines_all_ok env port.name rt.cores port.queues hlk hsf]

/-- Witness for claim C7: installing on the unknown port name "nope"
fails with `PortNotFound` and leaves `rtSig` unchanged; installing on
"eth0" afterwards succeeds and spawns eth0's single queue bootstrap to
core 1. -/
theorem Runtime.add_pipeline_to_port_spec_witness :
    Runtime.add_pipeline_to_port env0 rtSig "nope" =
      some (.error (.PortNotFound "nope"), rtSig) ∧
    Runtime.add_pipeline_to_port env0 rtSig "eth0" =
      some (.ok (), { rtSig with spawnLog :=
        [(1, Bootstrap.portPipeline "eth0" q0)] }) :=
  ⟨(Runtime.add_pipeline_to_port_spec env0 rtSig "nope").1 (by decide),
   (Runtime.add_pipeline_to_port_spec env0 rtSig "eth0").2 port0 (by decide)
     (by decide) (fun _ _ => rfl)⟩

/-- When every port start succeeds, the start loop starts every port in
order and emits one start event per port. -/
theorem startPorts_all_ok (env : Env) :
    ∀ (ports : List Port), ports.all (fun p => !env.startFails p.name) = true →
      startPorts env ports =
        (none, ports.map startPort, ports.map (fun p => Event.portStart p.name)) := by
  intro ports
  induction ports with
  | nil => intro _; rfl
  | cons p ps ih =>
    intro hall
    rw [List.all_cons, Bool.and_eq_true, Bool.not_eq_true'] at hall
    obtain ⟨hp, hps⟩ := hall
    unfold startPorts
    rw [hp]
    simp only [Bool.false_eq_true, if_false, ih hps]
    rfl

/-- The start loop succeeds exactly when no port start fails. -/
theorem startPorts_fst_none_iff (env : Env) :
    ∀ (ports : List Port),
      (startPorts env ports).1 = none ↔
        ports.all (fun p => !env.startFails p.name) = true := by
  intro ports
  induction ports with
  | nil => simp [startPorts]
  | cons p ps ih =>
    cases hf : env.startFails p.name
    · unfold startPorts
      rw [hf]
      simp only [Bool.false_eq_true, if_false, List.all_cons, hf, Bool.not_false,
        Bool.true_and]
      exact ih
    · unfold startPorts
      rw [hf]
      simp [List.all_cons, hf]

/-- The first failing port determines the error of the start loop. -/
theorem startPorts_first_failure (env : Env) :
    ∀ (pre : List Port) (p : Port) (post : List Port),
      pre.all (fun q => !env.startFails q.name) = true →
      env.startFails p.name = true →
      (startPorts env (pre ++ p :: post)).1 = some (.PortStartFailed p.name) := by
  intro pre
  induction pre with
  | nil =>
    intro p post _ hf
    rw [List.nil_append]
    unfold startPorts
    rw [hf]
    rfl
  | cons q qs ih =>
    intro p post hall hf
    rw [List.all_cons, Bool.and_eq_true, Bool.not_eq_true'] at hall
    obtain ⟨hq, hqs⟩ := hall
    rw [List.cons_append]
    unfold startPorts
    rw [hq]
    simp only [Bool.false_eq_true, if_false]
    exact ih p post hqs hf

/-- A failing wait step carries the error and an empty trace. -/
theorem waitStep_error_eq (env : Env) (f : UnixSignal → Bool) :
    ∀ (dur : Option Nat) (e : RtError), (waitStep env f dur).1 = .error e →
      waitStep env f dur = (.error e, []) := by
  have hsig : ∀ e : RtError, (signalModeStep env f).1 = .error e →
      signalModeStep env f = (.error e, []) := by
    intro e h
    unfold signalModeStep at h ⊢
    rcases hw : wait_for_signal env f with er | r
    all_goals rw [hw] at h
    · rw [(Except.error.inj h : er = e)]
    · exact Except.noConfusion h
  intro dur e h
  match dur with
  | none => exact hsig e h
  | some 0 => exact hsig e h
  | some (d + 1) => cases h

/-- When every worker still holds its one-shot handles, the shutdown loop
runs to completion and joins every worker's thread. -/
theorem shutdownCores_of_wf :
    ∀ (l : List (Nat × WorkerExecutor)),
      (∀ cw ∈ l, cw.2.shutdown.isSome = true ∧ cw.2.join.isSome = true) →
      ∃ l2 tr, shutdownCores l = some (l2, tr) ∧
        ∀ cw ∈ l, Event.joinThread cw.1 ∈ tr := by
  intro l
  induction l with
  | nil => intro _; exact ⟨[], [], rfl, by simp⟩
  | cons cw rest ih =>
    intro hwf
    obtain ⟨c, w⟩ := cw
    obtain ⟨hs, hj⟩ := hwf (c, w) (List.mem_cons_self _ _)
    obtain ⟨l2, tr, hrec, hjoin⟩ := ih (fun x hx => hwf x (List.mem_cons_of_mem _ hx))
    rcases hs1 : w.shutdown with _ | t
    · rw [hs1] at hs; cases hs
    rcases hj1 : w.join with _ | u
    · rw [hj1] at hj; cases hj
    refine ⟨(c, { w with shutdown := none, join := none }) :: l2,
      Event.shutdownTrigger c :: Event.joinThread c :: tr, ?_, ?_⟩
    · unfold shutdownCores
      simp only [hs1, hj1, hrec, Option.map_some']
    · intro x hx
      rcases List.mem_cons.mp hx with rfl | hx2
      · exact List.mem_cons_of_mem _ (List.mem_cons_self _ _)
      · exact List.mem_cons_of_mem _ (List.mem_cons_of_mem _ (hjoin x hx2))

/-- The shutdown loop emits no events for a core that is not in the map. -/
theorem shutdownCores_not_mem :
    ∀ (l : List (Nat × WorkerExecutor)) l2 tr, shutdownCores l = some (l2, tr) →
      ∀ c, c ∉ l.map Prod.fst →
        Event.shutdownTrigger c ∉ tr ∧ Event.joinThread c ∉ tr := by
  intro l
  induction l with
  | nil =>
    intro l2 tr h c _
    obtain ⟨-, h2⟩ := Prod.mk.injEq .. ▸ Option.some.inj h
    rw [← h2]
    exact ⟨by simp, by simp⟩
  | cons cw rest ih =>
    intro l2 tr h c hc
    obtain ⟨c0, w⟩ := cw
    have hc0 : c ≠ c0 := by
      intro heq
      exact hc (by rw [heq]; exact List.mem_cons_self _ _)
    have hcr : c ∉ rest.map Prod.fst := fun hmem => hc (List.mem_cons_of_mem _ hmem)
    unfold shutdownCores at h
    rcases hs : w.shutdown with _ | t <;> rw [hs] at h
    · rw [Option.map_eq_some'] at h
      obtain ⟨⟨l2r, trr⟩, hrec, hfe⟩ := h
      obtain ⟨-, h2⟩ := Prod.mk.injEq .. ▸ hfe
      rw [← h2]
      exact ih l2r trr hrec c hcr
    · rcases hj : w.join with _ | u <;> rw [hj] at h
      · cases h
      · rw [Option.map_eq_some'] at h
        obtain ⟨⟨l2r, trr⟩, hrec, hfe⟩ := h
        obtain ⟨-, h2⟩ := Prod.mk.injEq .. ▸ hfe
        rw [← h2]
        obtain ⟨iht, ihj⟩ := ih l2r trr hrec c hcr
        constructor
        · intro hmem
          rcases List.mem_cons.mp hmem with he | hmem2
          · exact hc0 (Event.shutdownTrigger.inj he)
          rcases List.mem_cons.mp hmem2 with he | hmem3
          · cases he
          · exact iht hmem3
        · intro hmem
          rcases List.mem_cons.mp hmem with he | hmem2
          · cases he
          rcases List.mem_cons.mp hmem2 with he | hmem3
          · exact hc0 (Event.joinThread.inj he)
          · exact ihj hmem3

/-- With distinct worker core ids, each worker's shutdown trigger fires
strictly before its thread join in the shutdown-loop trace. -/
theorem shutdownCores_trigger_before_join :
    ∀ (l : List (Nat × WorkerExecutor)) l2 tr, (l.map Prod.fst).Nodup →
      shutdownCores l = some (l2, tr) →
      ∀ (c i j : Nat), tr[i]? = some (Event.shutdownTrigger c) →
        tr[j]? = some (Event.joinThread c) → i < j := by
  intro l
  induction l with
  | nil =>
    intro l2 tr _ h c i j hi _
    obtain ⟨-, h2⟩ := Prod.mk.injEq .. ▸ Option.some.inj h
    rw [← h2] at hi
    simp at hi
  | cons cw rest ih =>
    intro l2 tr hnd h c i j hi hj
    obtain ⟨c0, w⟩ := cw
    rw [List.map_cons, List.nodup_cons] at hnd
    obtain ⟨hc0nm, hndr⟩ := hnd
    unfold shutdownCores at h
    rcases hs : w.shutdown with _ | t <;> rw [hs] at h
    · rw [Option.map_eq_some'] at h
      obtain ⟨⟨l2r, trr⟩, hrec, hfe⟩ := h
      obtain ⟨-, h2⟩ := Prod.mk.injEq .. ▸ hfe
      rw [← h2] at hi hj
      exact ih l2r trr hndr hrec c i j hi hj
    · rcases hjn : w.join with _ | u <;> rw [hjn] at h
      · cases h
      · rw [Option.map_eq_some'] at h
        obtain ⟨⟨l2r, trr⟩, hrec, hfe⟩ := h
        obtain ⟨-, h2⟩ := Prod.mk.injEq .. ▸ hfe
        rw [← h2] at hi hj
        by_cases hcc : c = c0
        · subst hcc
          obtain ⟨hnt, hnj⟩ := shutdownCores_not_mem rest l2r trr hrec c hc0nm
          have hi0 : i = 0 := by
            match i with
            | 0 => rfl
            | 1 => rw [List.getElem?_cons_succ, List.getElem?_cons_zero] at hi; cases hi
            | n + 2 =>
              rw [List.getElem?_cons_succ, List.getElem?_cons_succ] at hi
              exact absurd (List.getElem?_mem hi) hnt
          have hj1 : j = 1 := by
            match j with
            | 0 => rw [List.getElem?_cons_zero] at hj; cases hj
            | 1 => rfl
            | n + 2 =>
              rw [List.getElem?_cons_succ, List.getElem?_cons_succ] at hj
              exact absurd (List.getElem?_mem hj) hnj
          rw [hi0, hj1]
          exact Nat.zero_lt_one
        · match i, j with
          | 0, _ =>
            rw [List.getElem?_cons_zero] at hi
            exact absurd (Event.shutdownTrigger.inj (Option.some.inj hi)).symm hcc
          | 1, _ =>
            rw [List.getElem?_cons_succ, List.getElem?_cons_zero] at hi
            cases Option.some.inj hi
          | _, 0 =>
            rw [List.getElem?_cons_zero] at hj
            cases Option.some.inj hj
          | _, 1 =>
            rw [List.getElem?_cons_succ, List.getElem?_cons_zero] at hj
            exact absurd (Event.joinThread.inj (Option.some.inj hj)).symm hcc
          | i2 + 2, j2 + 2 =>
            rw [List.getElem?_cons_succ, List.getElem?_cons_succ] at hi hj
            have := ih l2r trr hndr hrec c i2 j2 hi hj
            omega

/-- An element found at an index of `l1 ++ l2` that cannot lie in `l2`
lies in `l1`, at an index below its length. -/
theorem getElem?_append_into_left {α} {l1 l2 : List α} {i : Nat} {a : α}
    (h : (l1 ++ l2)[i]? = some a) (hnot : ∀ x ∈ l2, x ≠ a) :
    i < l1.length ∧ l1[i]? = some a := by
  by_cases hi : i < l1.length
  · exact ⟨hi, by rw [List.getElem?_append_left hi] at h; exact h⟩
  · push_neg at hi
    rw [List.getElem?_append_right hi] at h
    exact absurd rfl (hnot a (List.getElem?_mem h))

/-- An element found at an index of `l1 ++ l2` that cannot lie in `l1`
lies in `l2`, at an index past `l1`. -/
theorem getElem?_append_skip_left {α} {l1 l2 : List α} {i : Nat} {a : α}
    (h : (l1 ++ l2)[i]? = some a) (hnot : ∀ x ∈ l1, x ≠ a) :
    l1.length ≤ i ∧ l2[i - l1.length]? = some a := by
  by_cases hi : i < l1.length
  · rw [List.getElem?_append_left hi] at h
    exact absurd rfl (hnot a (List.getElem?_mem h))
  · push_neg at hi
    exact ⟨hi, by rw [List.getElem?_append_right hi] at h; exact h⟩

/-- Claim C2 (amended): after a successful build, a transient error in the
wait step — e.g. a signal-subscription failure — aborts `execute`, which
returns that error immediately; the shutdown sequence is NOT run: no
shutdown trigger fires, no thread is joined, no port is stopped, the
workers keep their shutdown triggers and every port is left started. -/
theorem Runtime.execute_wait_error_spec :
    ∀ (env : Env) (rt : Runtime) (e : RtError),
      rt.ports.all (fun p => !env.startFails p.name) = true →
      (waitStep env rt.onSignal rt.duration).1 = .error e →
      Runtime.execute env rt =
        some (.error e, { rt with ports := rt.ports.map startPort },
          rt.ports.map (fun p => Event.portStart p.name) ++ unparkEvents rt.cores) ∧
      (∀ ev ∈ rt.ports.map (fun p => Event.portStart p.name) ++ unparkEvents rt.cores,
        ev.isShutdownTrigger = false ∧ ev.isJoinThread = false ∧ ev.isPortStop = false) ∧
      ({ rt with ports := rt.ports.map startPort } : Runtime).cores = rt.cores ∧
      (∀ p ∈ rt.ports.map startPort, p.state = PortState.Started) := by
  intro env rt e hall herr
  have hsp := startPorts_all_ok env rt.ports hall
  have hwe := waitStep_error_eq env rt.onSignal rt.duration e herr
  refine ⟨?_, ?_, rfl, ?_⟩
  · have h := execute_eq_wait_error env rt hsp hwe
    rw [List.append_nil] at h
    exact h
  · intro ev hev
    rcases List.mem_append.mp hev with hev | hev
    · rcases List.mem_map.mp hev with ⟨p, -, rfl⟩
      exact ⟨rfl, rfl, rfl⟩
    · obtain ⟨c, rfl⟩ := unparkEvents_mem_shape rt.cores ev hev
      exact ⟨rfl, rfl, rfl⟩
  · intro p hp
    rcases List.mem_map.mp hp with ⟨q, -, rfl⟩
    rfl

/-- Claim C2 counterexample: with every signal subscription failing, the
built runtime `rtSig` sees `execute` return the subscription error with
no trigger, join or port-stop event in the trace, both workers still
holding their shutdown triggers and both ports left started — refuting
the claim that `execute` proceeds to the shutdown sequence before
returning the error. -/
theorem Runtime.execute_wait_error_skips_shutdown_cex :
    (Runtime.execute envSubFail rtSig).map (fun x => x.1) =
      some (.error .SignalSubscribeFailed) ∧
    (Runtime.execute envSubFail rtSig).map
      (fun x => x.2.2.filter (fun ev =>
        ev.isShutdownTrigger || ev.isJoinThread || ev.isPortStop)) = some [] ∧
    (Runtime.execute envSubFail rtSig).map
      (fun x => x.2.1.cores.map (fun cw => cw.2.shutdown.isSome)) = some [true, true] ∧
    (Runtime.execute envSubFail rtSig).map (fun x => x.2.1.ports.map Port.state) =
      some [.Started, .Started] :=
  ⟨rfl, rfl, rfl, rfl⟩

/-- Witness for the amended claim C2 at `envSubFail` and `rtSig`. -/
theorem Runtime.execute_wait_error_spec_witness :
    Runtime.execute envSubFail rtSig =
      some (.error .SignalSubscribeFailed,
        { rtSig with ports := rtSig.ports.map startPort },
        rtSig.ports.map (fun p => Event.portStart p.name) ++ unparkEvents rtSig.cores) ∧
    ({ rtSig with ports := rtSig.ports.map startPort } : Runtime).cores = rtSig.cores :=
  ⟨(Runtime.execute_wait_error_spec envSubFail rtSig .SignalSubscribeFailed rfl rfl).1,
   (Runtime.execute_wait_error_spec envSubFail rtSig .SignalSubscribeFailed rfl rfl).2.2.1⟩

/-- Claim C1 counterexample: with `envSubFail`, every port of `rtSig`
starts successfully (the start loop reports no error), yet `execute`
returns an error — the signal-subscription failure — so a non-`Ok` result
of `execute` is not always the first error encountered during port
start. -/
theorem Runtime.execute_error_not_from_port_start_cex :
    (Runtime.execute envSubFail rtSig).map (fun x => x.1) =
      some (.error .SignalSubscribeFailed) ∧
    rtSig.ports.all (fun p => !envSubFail.startFails p.name) = true ∧
    (startPorts envSubFail rtSig.ports).1 = none :=
  ⟨rfl, rfl, rfl⟩

/-- Claim C1 (amended): for a well-formed runtime, `execute` does not
panic; it returns `Ok(())` exactly when every port start succeeded and
the wait step finished cleanly; when a port fails to start it returns
the first such port's start error; when all ports started but the wait
step failed it returns the wait error; and in the `Ok` case every worker
thread has been joined and every port has been stopped. -/
theorem Runtime.execute_result_spec :
    ∀ (env : Env) (rt : Runtime), WfRuntime rt →
      (Runtime.execute env rt).isSome = true ∧
      ∀ (r : Except RtError Unit) (rt2 : Runtime) (tr : List Event),
        Runtime.execute env rt = some (r, rt2, tr) →
        (r = .ok () ↔ rt.ports.all (fun p => !env.startFails p.name) = true ∧
          (waitStep env rt.onSignal rt.duration).1 = .ok ()) ∧
        (∀ pre p post, rt.ports = pre ++ p :: post →
          pre.all (fun q => !env.startFails q.name) = true →
          env.startFails p.name = true →
          r = .error (.PortStartFailed p.name)) ∧
        (∀ e : RtError, rt.ports.all (fun p => !env.startFails p.name) = true →
          (waitStep env rt.onSignal rt.duration).1 = .error e → r = .error e) ∧
        (r = .ok () →
          (∀ cw ∈ rt.cores, Event.joinThread cw.1 ∈ tr) ∧
          rt2.ports.map Port.state = rt.ports.map (fun _ => PortState.Stopped) ∧
          rt2.ports.map Port.name = rt.ports.map Port.name) := by
  intro env rt hwf
  constructor
  · rcases hsp : startPorts env rt.ports with ⟨efirst, ports1, tr1⟩
    cases efirst with
    | some e => rw [execute_eq_start_error env rt hsp]; rfl
    | none =>
      rcases hw : waitStep env rt.onSignal rt.duration with ⟨wres, tr2⟩
      cases wres with
      | error e => rw [execute_eq_wait_error env rt hsp hw]; rfl
      | ok u =>
        obtain ⟨l2, tr3, hsd, -⟩ := shutdownCores_of_wf rt.cores hwf.2
        rw [execute_eq_ok env rt hsp hw hsd]
        rfl
  · intro r rt2 tr hex
    rcases execute_cases env rt (r, rt2, tr) hex with
      ⟨e1, ports1, tr1, hsp, heq⟩ | ⟨ports1, tr1, e1, tr2, hsp, hw, heq⟩ |
      ⟨ports1, tr1, u, tr2, cores1, tr3, hsp, hw, hsd, heq⟩
    · have hr : r = .error e1 := congrArg (fun x => x.1) heq
      have hnotall : ¬ rt.ports.all (fun p => !env.startFails p.name) = true := by
        intro hall
        have h1 : (startPorts env rt.ports).1 = none := by
          rw [startPorts_all_ok env rt.ports hall]
        rw [hsp] at h1
        exact Option.noConfusion h1
      refine ⟨?_, ?_, ?_, ?_⟩
      · constructor
        · intro hok; rw [hr] at hok; exact Except.noConfusion hok
        · intro h; exact absurd h.1 hnotall
      · intro pre p post hdec hpra hpf
        have hfst : (startPorts env rt.ports).1 = some (.PortStartFailed p.name) := by
          rw [hdec]
          exact startPorts_first_failure env pre p post hpra hpf
        rw [hsp] at hfst
        have he1 : e1 = .PortStartFailed p.name := Option.some.inj hfst
        rw [hr, he1]
      · intro e hall _; exact absurd hall hnotall
      · intro hok; rw [hr] at hok; exact Except.noConfusion hok
    · have hr : r = .error e1 := congrArg (fun x => x.1) heq
      have hallfst : (startPorts env rt.ports).1 = none := by rw [hsp]
      have hall := (startPorts_fst_none_iff env rt.ports).mp hallfst
      have hwfst : (waitStep env rt.onSignal rt.duration).1 = .error e1 := by rw [hw]
      refine ⟨?_, ?_, ?_, ?_⟩
      · constructor
        · intro hok; rw [hr] at hok; exact Except.noConfusion hok
        · intro h
          rw [h.2] at hwfst
          exact Except.noConfusion hwfst
      · intro pre p post hdec hpra hpf
        have hsome := startPorts_first_failure env pre p post hpra hpf
        rw [← hdec] at hsome
        rw [hsome] at hallfst
        exact Option.noConfusion hallfst
      · intro e _ hw2
        rw [hwfst] at hw2
        have he : e1 = e := Except.error.inj hw2
        rw [hr, he]
      · intro hok; rw [hr] at hok; exact Except.noConfusion hok
    · cases u
      have hr : r = .ok () := congrArg (fun x => x.1) heq
      have hrt2 : rt2 = { rt with ports := ports1.map stopPort, cores := cores1 } :=
        congrArg (fun x => x.2.1) heq
      have htr : tr = tr1 ++ unparkEvents rt.cores ++ tr2 ++ tr3 ++
          ports1.map (fun p => Event.portStop p.name) :=
        congrArg (fun x => x.2.2) heq
      have hallfst : (startPorts env rt.ports).1 = none := by rw [hsp]
      have hall := (startPorts_fst_none_iff env rt.ports).mp hallfst
      have hports1 : ports1 = rt.ports.map startPort := by
        have hh := startPorts_all_ok env rt.ports hall
        rw [hsp] at hh
        exact congrArg (fun x => x.2.1) hh
      have hwfst : (waitStep env rt.onSignal rt.duration).1 = .ok () := by rw [hw]
      refine ⟨?_, ?_, ?_, ?_⟩
      · exact ⟨fun _ => ⟨hall, hwfst⟩, fun _ => hr⟩
      · intro pre p post hdec hpra hpf
        have hsome := startPorts_first_failure env pre p post hpra hpf
        rw [← hdec] at hsome
        rw [hsome] at hallfst
        exact Option.noConfusion hallfst
      · intro e _ hw2
        rw [hw2] at hwfst
        exact Except.noConfusion hwfst
      · intro _
        obtain ⟨l2w, tr3w, hsdw, hjoins⟩ := shutdownCores_of_wf rt.cores hwf.2
        rw [hsd] at hsdw
        obtain ⟨-, htr3⟩ := Prod.mk.injEq .. ▸ Option.some.inj hsdw
        refine ⟨?_, ?_, ?_⟩
        · intro cw hcw
          rw [htr]
          have hj3 : Event.joinThread cw.1 ∈ tr3 := by
            rw [htr3]
            exact hjoins cw hcw
          exact List.mem_append.mpr (Or.inl (List.mem_append.mpr (Or.inr hj3)))
        · rw [hrt2, hports1]
          simp only [List.map_map]
          rfl
        · rw [hrt2, hports1]
          simp only [List.map_map]
          rfl

/-- Witness for the amended claim C1 at `env0` and `rt0`: the run does
not panic and leaves the port stopped. -/
theorem Runtime.execute_result_spec_witness :
    (Runtime.execute env0 rt0).isSome = true ∧
    rt0exec.ports.map Port.state = rt0.ports.map (fun _ => PortState.Stopped) :=
  ⟨(Runtime.execute_result_spec env0 rt0 (by decide)).1,
   (((Runtime.execute_result_spec env0 rt0 (by decide)).2 (.ok ()) rt0exec tr0exec
      rfl).2.2.2 rfl).2.1⟩

/-- Claim C5: in every `execute` trace, every port start occurs strictly
before every worker unpark (so before any user task can run), and for
each worker core the shutdown trigger fires strictly before that core's
thread join. -/
theorem Runtime.execute_ordering :
    ∀ (env : Env) (rt : Runtime), WfRuntime rt →
      ∀ (r : Except RtError Unit) (rt2 : Runtime) (tr : List Event),
        Runtime.execute env rt = some (r, rt2, tr) →
        (∀ (i j : Nat) (nm : String) (c : Nat),
          tr[i]? = some (Event.portStart nm) → tr[j]? = some (Event.unpark c) →
          i < j) ∧
        (∀ (i j c : Nat),
          tr[i]? = some (Event.shutdownTrigger c) →
          tr[j]? = some (Event.joinThread c) → i < j) := by
  intro env rt hwf r rt2 tr hex
  rcases execute_cases env rt (r, rt2, tr) hex with
    ⟨e1, ports1, tr1, hsp, heq⟩ | ⟨ports1, tr1, e1, tr2, hsp, hw, heq⟩ |
    ⟨ports1, tr1, u, tr2, cores1, tr3, hsp, hw, hsd, heq⟩
  · -- port-start failure: the trace holds only port starts
    have htr : tr = tr1 := congrArg (fun x => x.2.2) heq
    have hshape : ∀ x ∈ tr1, ∃ nm, x = Event.portStart nm := by
      intro x hx
      exact startPorts_mem_shape env rt.ports x (by rw [hsp]; exact hx)
    constructor
    · intro i j nm c _ hj
      rw [htr] at hj
      obtain ⟨nm2, hx⟩ := hshape _ (List.getElem?_mem hj)
      cases hx
    · intro i j c hi _
      rw [htr] at hi
      obtain ⟨nm2, hx⟩ := hshape _ (List.getElem?_mem hi)
      cases hx
  · -- wait failure: starts, then unparks, then wait events; no shutdown
    have htr : tr = tr1 ++ (unparkEvents rt.cores ++ tr2) := by
      have h := congrArg (fun x => x.2.2) heq
      rw [List.append_assoc] at h
      exact h
    have hshape1 : ∀ x ∈ tr1, ∃ nm, x = Event.portStart nm := by
      intro x hx
      exact startPorts_mem_shape env rt.ports x (by rw [hsp]; exact hx)
    constructor
    · intro i j nm c hi hj
      rw [htr] at hi hj
      have hnotR : ∀ x ∈ unparkEvents rt.cores ++ tr2, x ≠ Event.portStart nm := by
        intro x hx
        rcases List.mem_append.mp hx with hx | hx
        · obtain ⟨c2, rfl⟩ := unparkEvents_mem_shape rt.cores x hx
          exact fun hcontra => Event.noConfusion hcontra
        · rcases waitStep_mem_shape env rt.onSignal rt.duration x (by rw [hw]; exact hx) with
            rfl | ⟨d, rfl⟩ <;> exact fun hcontra => Event.noConfusion hcontra
      have hnotL : ∀ x ∈ tr1, x ≠ Event.unpark c := by
        intro x hx
        obtain ⟨nm2, rfl⟩ := hshape1 x hx
        exact fun hcontra => Event.noConfusion hcontra
      obtain ⟨hilt, -⟩ := getElem?_append_into_left hi hnotR
      obtain ⟨hjge, -⟩ := getElem?_append_skip_left hj hnotL
      omega
    · intro i j c hi _
      rw [htr] at hi
      have hx := List.getElem?_mem hi
      rcases List.mem_append.mp hx with hx | hx
      · obtain ⟨nm2, hcontra⟩ := hshape1 _ hx
        cases hcontra
      rcases List.mem_append.mp hx with hx | hx
      · obtain ⟨c2, hcontra⟩ := unparkEvents_mem_shape rt.cores _ hx
        cases hcontra
      · rcases waitStep_mem_shape env rt.onSignal rt.duration _ (by rw [hw]; exact hx) with
          hcontra | ⟨d, hcontra⟩ <;> cases hcontra
  · -- clean run
    have htr : tr = tr1 ++ (unparkEvents rt.cores ++ (tr2 ++ (tr3 ++
        ports1.map (fun p => Event.portStop p.name)))) := by
      have h := congrArg (fun x => x.2.2) heq
      rw [List.append_assoc, List.append_assoc, List.append_assoc] at h
      exact h
    have hshape1 : ∀ x ∈ tr1, ∃ nm, x = Event.portStart nm := by
      intro x hx
      exact startPorts_mem_shape env rt.ports x (by rw [hsp]; exact hx)
    have hshape3 := shutdownCores_mem_shape rt.cores cores1 tr3 hsd
    constructor
    · intro i j nm c hi hj
      rw [htr] at hi hj
      have hnotR : ∀ x ∈ unparkEvents rt.cores ++ (tr2 ++ (tr3 ++
          ports1.map (fun p => Event.portStop p.name))), x ≠ Event.portStart nm := by
        intro x hx
        rcases List.mem_append.mp hx with hx | hx
        · obtain ⟨c2, rfl⟩ := unparkEvents_mem_shape rt.cores x hx
          exact fun hcontra => Event.noConfusion hcontra
        rcases List.mem_append.mp hx with hx | hx
        · rcases waitStep_mem_shape env rt.onSignal rt.duration x (by rw [hw]; exact hx) with
            rfl | ⟨d, rfl⟩ <;> exact fun hcontra => Event.noConfusion hcontra
        rcases List.mem_append.mp hx with hx | hx
        · rcases hshape3 x hx with ⟨c2, rfl⟩ | ⟨c2, rfl⟩ <;>
            exact fun hcontra => Event.noConfusion hcontra
        · rcases List.mem_map.mp hx with ⟨p, -, rfl⟩
          exact fun hcontra => Event.noConfusion hcontra
      have hnotL : ∀ x ∈ tr1, x ≠ Event.unpark c := by
        intro x hx
        obtain ⟨nm2, rfl⟩ := hshape1 x hx
        exact fun hcontra => Event.noConfusion hcontra
      obtain ⟨hilt, -⟩ := getElem?_append_into_left hi hnotR
      obtain ⟨hjge, -⟩ := getElem?_append_skip_left hj hnotL
      omega
    · intro i j c hi hj
      rw [htr] at hi hj
      have hno1t : ∀ x ∈ tr1, x ≠ Event.shutdownTrigger c := by
        intro x hx
        obtain ⟨nm2, rfl⟩ := hshape1 x hx
        exact fun hcontra => Event.noConfusion hcontra
      have hno1j : ∀ x ∈ tr1, x ≠ Event.joinThread c := by
        intro x hx
        obtain ⟨nm2, rfl⟩ := hshape1 x hx
        exact fun hcontra => Event.noConfusion hcontra
      have hnoUt : ∀ x ∈ unparkEvents rt.cores, x ≠ Event.shutdownTrigger c := by
        intro x hx
        obtain ⟨c2, rfl⟩ := unparkEvents_mem_shape rt.cores x hx
        exact fun hcontra => Event.noConfusion hcontra
      have hnoUj : ∀ x ∈ unparkEvents rt.cores, x ≠ Event.joinThread c := by
        intro x hx
        obtain ⟨c2, rfl⟩ := unparkEvents_mem_shape rt.cores x hx
        exact fun hcontra => Event.noConfusion hcontra
      have hnoWt : ∀ x ∈ tr2, x ≠ Event.shutdownTrigger c := by
        intro x hx
        rcases waitStep_mem_shape env rt.onSignal rt.duration x (by rw [hw]; exact hx) with
          rfl | ⟨d, rfl⟩ <;> exact fun hcontra => Event.noConfusion hcontra
      have hnoWj : ∀ x ∈ tr2, x ≠ Event.joinThread c := by
        intro x hx
        rcases waitStep_mem_shape env rt.onSignal rt.duration x (by rw [hw]; exact hx) with
          rfl | ⟨d, rfl⟩ <;> exact fun hcontra => Event.noConfusion hcontra
      have hnoSt : ∀ x ∈ ports1.map (fun p => Event.portStop p.name),
          x ≠ Event.shutdownTrigger c := by
        intro x hx
        rcases List.mem_map.mp hx with ⟨p, -, rfl⟩
        exact fun hcontra => Event.noConfusion hcontra
      have hnoSj : ∀ x ∈ ports1.map (fun p => Event.portStop p.name),
          x ≠ Event.joinThread c := by
        intro x hx
        rcases List.mem_map.mp hx with ⟨p, -, rfl⟩
        exact fun hcontra => Event.noConfusion hcontra
      obtain ⟨hi1, hi2⟩ := getElem?_append_skip_left hi hno1t
      obtain ⟨hi3, hi4⟩ := getElem?_append_skip_left hi2 hnoUt
      obtain ⟨hi5, hi6⟩ := getElem?_append_skip_left hi4 hnoWt
      obtain ⟨hi7, hi8⟩ := getElem?_append_into_left hi6 hnoSt
      obtain ⟨hj1, hj2⟩ := getElem?_append_skip_left hj hno1j
      obtain ⟨hj3, hj4⟩ := getElem?_append_skip_left hj2 hnoUj
      obtain ⟨hj5, hj6⟩ := getElem?_append_skip_left hj4 hnoWj
      obtain ⟨hj7, hj8⟩ := getElem?_append_into_left hj6 hnoSj
      have hcore := shutdownCores_trigger_before_join rt.cores cores1 tr3 hwf.1 hsd c
        _ _ hi8 hj8
      omega

/-- Witness for claim C5 at `env0` and `rt0`: in the concrete trace
`tr0exec` the port start (index 0) precedes the unpark (index 1), and the
shutdown trigger of core 1 (index 3) precedes its join (index 4). -/
theorem Runtime.execute_ordering_witness : (0 : Nat) < 1 ∧ (3 : Nat) < 4 :=
  ⟨(Runtime.execute_ordering env0 rt0 (by decide) (.ok ()) rt0exec tr0exec rfl).1
      0 1 "eth0" 1 rfl rfl,
   (Runtime.execute_ordering env0 rt0 (by decide) (.ok ()) rt0exec tr0exec rfl).2
      3 4 1 rfl rfl⟩

end Nb2
